import Mathlib

/-
Verification development for the DX12 single-pendulum demo
(sources: PendulumDemo.cpp, FrameBuffer.h, FrameBuffer.cpp).

The relevant parts of the program are shallowly embedded as executable
Lean definitions: the frame-resource ring and fence logic of
PendulumMotion::Update / PendulumMotion::Draw, the dirty-propagation
counters of UpdateObjectCBs / UpdateMaterialCBs, the world-matrix
construction of UpdateReflectedAndShadowed / SetRenderingItems, the
pass sequencing of Draw, the stencil rules of SetPSOs, the explicit
Euler integrator EulerUpdate, and the camera clamping of OnMouseMove.
Machine floats are modelled as exact rationals (or reals where the
sine function is needed); GPU-side quantities (the completed fence
value reported by ID3D12Fence::GetCompletedValue and the value the
blocked wait returns at) are passed in as explicit parameters.
-/

namespace DXPendulum

/-! ### Frame-resource ring and fence gate

`PendulumMotion` keeps `gNumFrameBuffers = 3` FrameBuffer slots in a
circular array (`mFrameBuffers`), a cursor `mCurrentFrameBufferIndex`,
and the CPU-side submission counter `mCurrentFence`.  Each FrameBuffer
carries a `Fence` stamp, initialised to 0 (FrameBuffer.h line 64).
`Update` advances the cursor by `(cursor+1) % gNumFrameBuffers` and, if
the selected slot's stamp is nonzero and `mFence->GetCompletedValue()`
is below it, blocks on `SetEventOnCompletion(stamp)` +
`WaitForSingleObject` — a one-shot wait keyed to exactly that stamp.
`Draw` ends with `mCurrentFrameBuffer->Fence = ++mCurrentFence` and a
queue signal. -/

/-- `const int gNumFrameBuffers = 3` (PendulumDemo.cpp line 24). -/
def gNumFrameBuffers : Nat := 3

/-- The CPU-visible synchronisation state: the per-slot `Fence` stamps,
the ring cursor `mCurrentFrameBufferIndex`, and `mCurrentFence`. -/
structure RingState where
  stamps : List Nat
  cursor : Nat
  submitted : Nat
deriving DecidableEq

/-- Initial state: every slot's stamp is 0 ("never submitted"),
cursor 0, `mCurrentFence` 0. -/
def initRing (n : Nat) : RingState :=
  { stamps := List.replicate n 0, cursor := 0, submitted := 0 }

/-- The frame-slot acquisition step of `PendulumMotion::Update`
(PendulumDemo.cpp lines 279–288).  `completed` is the value
`mFence->GetCompletedValue()` returns at the test; `waitResult` is the
completed value observed once the blocked wait returns (the GPU fence
only releases the event when its counter has reached the keyed stamp).
Returns the new state, the completed counter in effect when the slot is
handed to the CPU, and the stamp the thread blocked on (if any). -/
def acquireNext (s : RingState) (completed waitResult : Nat) :
    RingState × Nat × Option Nat :=
  if s.stamps.getD ((s.cursor + 1) % s.stamps.length) 0 ≠ 0 ∧
      completed < s.stamps.getD ((s.cursor + 1) % s.stamps.length) 0 then
    ({ s with cursor := (s.cursor + 1) % s.stamps.length }, waitResult,
      some (s.stamps.getD ((s.cursor + 1) % s.stamps.length) 0))
  else
    ({ s with cursor := (s.cursor + 1) % s.stamps.length }, completed, none)

/-- The retire step at the end of `PendulumMotion::Draw`
(PendulumDemo.cpp lines 368–371):
`mCurrentFrameBuffer->Fence = ++mCurrentFence`. -/
def retire (s : RingState) : RingState :=
  { s with
    submitted := s.submitted + 1,
    stamps := s.stamps.set s.cursor (s.submitted + 1) }

/-- One full tick: acquire the next slot (Update), then submit and
stamp it (Draw). -/
def tickRing (s : RingState) (completed waitResult : Nat) : RingState :=
  retire (acquireNext s completed waitResult).1

/-- Invariant: every slot stamp is at most the global submitted
counter (each stamp was copied from `mCurrentFence` at some earlier
retire). -/
def ringInv (s : RingState) : Prop :=
  ∀ st ∈ s.stamps, st ≤ s.submitted

instance (s : RingState) : Decidable (ringInv s) :=
  List.decidableBAll _ s.stamps

theorem getD_set_self {α : Type} (l : List α) (i : Nat) (h : i < l.length)
    (a d : α) : (l.set i a).getD i d = a := by
  simp [List.getD_eq_getElem?_getD, List.getElem?_set, h]

theorem getD_set_ne {α : Type} (l : List α) (i j : Nat) (h : i ≠ j)
    (a d : α) : (l.set i a).getD j d = l.getD j d := by
  simp [List.getD_eq_getElem?_getD, List.getElem?_set, h]

theorem getD_mem {α : Type} (l : List α) (i : Nat) (h : i < l.length) (d : α) :
    l.getD i d ∈ l := by
  rw [List.getD_eq_getElem?_getD, List.getElem?_eq_getElem h]
  exact List.getElem_mem h

theorem getD_eq_getElem {α : Type} (l : List α) (i : Nat) (h : i < l.length)
    (d : α) : l.getD i d = l[i] := by
  rw [List.getD_eq_getElem?_getD, List.getElem?_eq_getElem h]
  rfl

/-- Structural description of `acquireNext`: the stamps and submitted
counter are untouched, the cursor advances by one modulo the ring
length, the in-effect completed counter is the wait result exactly when
the code's blocking condition holds, and the wait (when it happens) is
keyed to the selected slot's stamp. -/
theorem acquireNext_spec (s : RingState) (completed waitResult : Nat) :
    (acquireNext s completed waitResult).1.stamps = s.stamps ∧
    (acquireNext s completed waitResult).1.cursor
      = (s.cursor + 1) % s.stamps.length ∧
    (acquireNext s completed waitResult).1.submitted = s.submitted ∧
    (acquireNext s completed waitResult).2.1
      = (if s.stamps.getD ((s.cursor + 1) % s.stamps.length) 0 ≠ 0 ∧
            completed < s.stamps.getD ((s.cursor + 1) % s.stamps.length) 0
         then waitResult else completed) ∧
    (acquireNext s completed waitResult).2.2
      = (if s.stamps.getD ((s.cursor + 1) % s.stamps.length) 0 ≠ 0 ∧
            completed < s.stamps.getD ((s.cursor + 1) % s.stamps.length) 0
         then some (s.stamps.getD ((s.cursor + 1) % s.stamps.length) 0)
         else none) := by
  unfold acquireNext
  split_ifs with h <;> exact ⟨rfl, rfl, rfl, rfl, rfl⟩

/-- C1: the frame-slot acquisition step of `Update` never hands the CPU
a slot whose recorded stamp exceeds the in-effect completed counter:
after advancing the cursor to `(cursor+1) % N`, if the selected slot's
stamp is nonzero and the completed counter is below it, the thread
blocks on a one-shot wait keyed to exactly that stamp (hypothesis
`hgpu`: such a wait only returns once the completed counter has reached
the stamp), and otherwise does not block. -/
theorem C1_acquire_never_hands_unfinished_slot
    (s : RingState) (completed waitResult : Nat)
    (hgpu : s.stamps.getD ((s.cursor + 1) % s.stamps.length) 0 ≤ waitResult) :
    (acquireNext s completed waitResult).1.cursor
        = (s.cursor + 1) % s.stamps.length ∧
    (acquireNext s completed waitResult).1.stamps.getD
        (acquireNext s completed waitResult).1.cursor 0
      ≤ (acquireNext s completed waitResult).2.1 ∧
    (acquireNext s completed waitResult).2.2
      = (if s.stamps.getD ((s.cursor + 1) % s.stamps.length) 0 ≠ 0 ∧
            completed < s.stamps.getD ((s.cursor + 1) % s.stamps.length) 0
         then some (s.stamps.getD ((s.cursor + 1) % s.stamps.length) 0)
         else none) := by
  obtain ⟨h1, h2, h3, h4, h5⟩ := acquireNext_spec s completed waitResult
  refine ⟨h2, ?_, h5⟩
  rw [h1, h2, h4]
  split_ifs with h
  · exact hgpu
  · omega

/-- Concrete instantiation of `C1_acquire_never_hands_unfinished_slot`:
ring of stamps `[5, 3, 0]`, cursor 0, completed counter 2, blocked wait
returning at 3. -/
theorem C1_witness :
    ((⟨[5, 3, 0], 0, 5⟩ : RingState).stamps.getD ((0 + 1) % 3) 0 ≤ 3) ∧
    ((acquireNext ⟨[5, 3, 0], 0, 5⟩ 2 3).1.cursor = (0 + 1) % 3 ∧
     (acquireNext ⟨[5, 3, 0], 0, 5⟩ 2 3).1.stamps.getD
        (acquireNext ⟨[5, 3, 0], 0, 5⟩ 2 3).1.cursor 0
       ≤ (acquireNext ⟨[5, 3, 0], 0, 5⟩ 2 3).2.1 ∧
     (acquireNext ⟨[5, 3, 0], 0, 5⟩ 2 3).2.2
       = (if (⟨[5, 3, 0], 0, 5⟩ : RingState).stamps.getD ((0 + 1) % 3) 0 ≠ 0 ∧
             2 < (⟨[5, 3, 0], 0, 5⟩ : RingState).stamps.getD ((0 + 1) % 3) 0
          then some ((⟨[5, 3, 0], 0, 5⟩ : RingState).stamps.getD ((0 + 1) % 3) 0)
          else none)) :=
  ⟨by decide, C1_acquire_never_hands_unfinished_slot ⟨[5, 3, 0], 0, 5⟩ 2 3 (by decide)⟩

/-- C9: every slot stamp starts at 0 and is monotonically
non-decreasing (in fact strictly increasing) across reuses: each tick's
retire increments the submitted counter by exactly 1 and stores the new
value as the acquired slot's stamp, which strictly exceeds the stamp it
overwrites; all other slots are untouched; and the invariant that every
stamp is at most the submitted counter is preserved. -/
theorem C9_stamps_monotone
    (s : RingState) (completed waitResult : Nat)
    (hinv : ringInv s) (hlen : 0 < s.stamps.length) :
    (∀ n, (initRing n).stamps = List.replicate n 0 ∧ ringInv (initRing n)) ∧
    (tickRing s completed waitResult).submitted = s.submitted + 1 ∧
    (tickRing s completed waitResult).stamps.getD
        ((s.cursor + 1) % s.stamps.length) 0 = s.submitted + 1 ∧
    s.stamps.getD ((s.cursor + 1) % s.stamps.length) 0
      < (tickRing s completed waitResult).stamps.getD
          ((s.cursor + 1) % s.stamps.length) 0 ∧
    (∀ j, j ≠ (s.cursor + 1) % s.stamps.length →
      (tickRing s completed waitResult).stamps.getD j 0 = s.stamps.getD j 0) ∧
    ringInv (tickRing s completed waitResult) := by
  have hcur : (s.cursor + 1) % s.stamps.length < s.stamps.length :=
    Nat.mod_lt _ hlen
  obtain ⟨h1, h2, h3, _, _⟩ := acquireNext_spec s completed waitResult
  have hstamp : s.stamps.getD ((s.cursor + 1) % s.stamps.length) 0 ≤ s.submitted :=
    hinv _ (getD_mem s.stamps _ hcur 0)
  refine ⟨fun n => ⟨rfl, ?_⟩, ?_, ?_, ?_, ?_, ?_⟩
  · intro st hst
    simp only [initRing] at hst ⊢
    exact Nat.le_of_eq (List.eq_of_mem_replicate hst)
  · simp [tickRing, retire, h3]
  · simp only [tickRing, retire, h1, h2, h3]
    exact getD_set_self _ _ hcur _ _
  · simp only [tickRing, retire, h1, h2, h3]
    rw [getD_set_self _ _ hcur]
    omega
  · intro j hj
    simp only [tickRing, retire, h1, h2, h3]
    exact getD_set_ne _ _ _ (fun h => hj h.symm) _ _
  · intro st hst
    simp only [tickRing, retire, h1, h2, h3, ringInv] at hst ⊢
    rcases List.mem_or_eq_of_mem_set hst with h | h
    · exact Nat.le_succ_of_le (hinv st h)
    · omega

/-- Concrete instantiation of `C9_stamps_monotone`: state with stamps
`[5, 3, 4]`, cursor 0, submitted counter 5, completed 2, wait result 3. -/
theorem C9_witness :
    (ringInv ⟨[5, 3, 4], 0, 5⟩ ∧ 0 < ([5, 3, 4] : List Nat).length) ∧
    ((∀ n, (initRing n).stamps = List.replicate n 0 ∧ ringInv (initRing n)) ∧
     (tickRing ⟨[5, 3, 4], 0, 5⟩ 2 3).submitted = 5 + 1 ∧
     (tickRing ⟨[5, 3, 4], 0, 5⟩ 2 3).stamps.getD ((0 + 1) % 3) 0 = 5 + 1 ∧
     ([5, 3, 4] : List Nat).getD ((0 + 1) % 3) 0
       < (tickRing ⟨[5, 3, 4], 0, 5⟩ 2 3).stamps.getD ((0 + 1) % 3) 0 ∧
     (∀ j, j ≠ (0 + 1) % 3 →
       (tickRing ⟨[5, 3, 4], 0, 5⟩ 2 3).stamps.getD j 0
         = ([5, 3, 4] : List Nat).getD j 0) ∧
     ringInv (tickRing ⟨[5, 3, 4], 0, 5⟩ 2 3)) :=
  ⟨⟨by decide, by decide⟩,
    C9_stamps_monotone ⟨[5, 3, 4], 0, 5⟩ 2 3 (by decide) (by decide)⟩

/-! ### Render-pass sequencing of `PendulumMotion::Draw`

`Draw` (PendulumDemo.cpp lines 296–372) resets the command list with
the `"opaque"` pipeline state, clears depth/stencil (stencil to 0; the
stencil reference register defaults to 0 after a reset), binds the
common constant buffer at root parameter 2, and then records the five
layer passes.  The commands relevant to the claims are modelled as a
trace. -/

/-- `enum class RenderLayer` (PendulumDemo.cpp lines 50–58). -/
inductive RenderLayer
  | Opaque
  | Mirrors
  | Reflected
  | Transparent
  | Shadow
deriving DecidableEq

/-- The five pipeline-state objects built in `SetPSOs` and selected by
name in `Draw` (`"opaque"`, `"transparent"`, `"markStencilMirror"`,
`"drawStencilReflections"`, `"shadow"`). -/
inductive PSOKind
  | opaquePSO
  | transparentPSO
  | markStencilMirror
  | drawStencilReflections
  | shadowPSO
deriving DecidableEq

/-- The state-setting and draw commands `Draw` records, in source
order.  `bindCommonCB i` models `SetGraphicsRootConstantBufferView(2,
commonCB address + i * commonCBByteSize)` — slot 0 is the primary
common constants, slot 1 the mirror-reflected copy. -/
inductive DrawCmd
  | setStencilRef (r : Nat)
  | setPipeline (p : PSOKind)
  | bindCommonCB (slot : Nat)
  | drawLayer (l : RenderLayer)
deriving DecidableEq

/-- The command trace of `PendulumMotion::Draw`, lines 326–351. -/
def drawTrace : List DrawCmd :=
  [DrawCmd.bindCommonCB 0,
   DrawCmd.drawLayer RenderLayer.Opaque,
   DrawCmd.setStencilRef 1,
   DrawCmd.setPipeline PSOKind.markStencilMirror,
   DrawCmd.drawLayer RenderLayer.Mirrors,
   DrawCmd.bindCommonCB 1,
   DrawCmd.setPipeline PSOKind.drawStencilReflections,
   DrawCmd.drawLayer RenderLayer.Reflected,
   DrawCmd.bindCommonCB 0,
   DrawCmd.setStencilRef 0,
   DrawCmd.setPipeline PSOKind.transparentPSO,
   DrawCmd.drawLayer RenderLayer.Transparent,
   DrawCmd.setPipeline PSOKind.shadowPSO,
   DrawCmd.drawLayer RenderLayer.Shadow]

/-- Pipeline register state while the command list is replayed. -/
structure RecordState where
  stencilRef : Nat
  commonSlot : Option Nat
  pso : PSOKind
deriving DecidableEq

/-- Register state right after the `Reset(alloc, mPSOs["opaque"])` at
line 302: stencil reference 0 (command-list default), no common
constant buffer bound yet, opaque pipeline state. -/
def drawInit : RecordState :=
  { stencilRef := 0, commonSlot := none, pso := PSOKind.opaquePSO }

/-- Replay a command trace and collect, for each layer draw, the layer
together with the stencil reference, bound common-constants slot and
pipeline state in effect at that draw. -/
def recordedDraws : List DrawCmd → RecordState →
    List (RenderLayer × Nat × Option Nat × PSOKind)
  | [], _ => []
  | DrawCmd.setStencilRef r :: cs, st =>
      recordedDraws cs { st with stencilRef := r }
  | DrawCmd.setPipeline p :: cs, st =>
      recordedDraws cs { st with pso := p }
  | DrawCmd.bindCommonCB i :: cs, st =>
      recordedDraws cs { st with commonSlot := some i }
  | DrawCmd.drawLayer l :: cs, st =>
      (l, st.stencilRef, st.commonSlot, st.pso) :: recordedDraws cs st

/-- C4: every tick `Draw` records exactly five passes in the fixed
order Opaque, MarkMirrorStencil (layer Mirrors), DrawReflection,
RestoreTransparent, DrawShadow, none skipped; the stencil reference is
1 at the mirror-marking pass and still 1 at the reflection pass, and is
back to 0 at the transparent and shadow passes; the reflection pass
runs with the mirrored common-constants copy (slot 1) bound while every
other pass runs with the primary copy (slot 0). -/
theorem C4_five_passes_in_order :
    recordedDraws drawTrace drawInit =
      [(RenderLayer.Opaque, 0, some 0, PSOKind.opaquePSO),
       (RenderLayer.Mirrors, 1, some 0, PSOKind.markStencilMirror),
       (RenderLayer.Reflected, 1, some 1, PSOKind.drawStencilReflections),
       (RenderLayer.Transparent, 0, some 0, PSOKind.transparentPSO),
       (RenderLayer.Shadow, 0, some 0, PSOKind.shadowPSO)] := by
  decide

/-! ### Stencil semantics of the shadow pass

`SetPSOs` (PendulumDemo.cpp lines 1037–1057) builds the shadow
pipeline's depth-stencil state: stencil enabled, read/write mask 0xff,
front and back faces both `StencilFunc = EQUAL`, `StencilPassOp =
INCR`, `StencilFailOp = KEEP`, `StencilDepthFailOp = KEEP`.  `Draw`
issues the shadow pass with stencil reference 0 (line 343).  Stencil
values are 8-bit; `INCR` wraps modulo 256. -/

inductive StencilOp
  | keep
  | zero
  | replace
  | incrSat
  | decrSat
  | invert
  | incr
  | decr
deriving DecidableEq

inductive CompFunc
  | never
  | less
  | equal
  | lessEqual
  | greater
  | notEqual
  | greaterEqual
  | always
deriving DecidableEq

/-- One stencil face description (fail op, depth-fail op, pass op,
comparison function), as in `D3D12_DEPTH_STENCIL_DESC`. -/
structure StencilFaceDesc where
  failOp : StencilOp
  depthFailOp : StencilOp
  passOp : StencilOp
  func : CompFunc
deriving DecidableEq

/-- Effect of a stencil operation on an 8-bit stencil value. -/
def applyStencilOp (op : StencilOp) (ref s : Nat) : Nat :=
  match op with
  | StencilOp.keep => s
  | StencilOp.zero => 0
  | StencilOp.replace => ref
  | StencilOp.incrSat => min (s + 1) 255
  | StencilOp.decrSat => s - 1
  | StencilOp.invert => 255 - s
  | StencilOp.incr => (s + 1) % 256
  | StencilOp.decr => (s + 255) % 256

/-- Stencil comparison: the test passes when `ref OP s` holds (the
source's read mask 0xff is the identity on 8-bit values). -/
def compFuncHolds (f : CompFunc) (ref s : Nat) : Bool :=
  match f with
  | CompFunc.never => false
  | CompFunc.less => decide (ref < s)
  | CompFunc.equal => decide (ref = s)
  | CompFunc.lessEqual => decide (ref ≤ s)
  | CompFunc.greater => decide (s < ref)
  | CompFunc.notEqual => decide (ref ≠ s)
  | CompFunc.greaterEqual => decide (s ≤ ref)
  | CompFunc.always => true

/-- Process one rasterised fragment against the stencil buffer:
returns whether the fragment's colour (the shadow blend) is written,
and the new stencil value. -/
def stencilFrag (d : StencilFaceDesc) (ref : Nat) (depthPass : Bool)
    (s : Nat) : Bool × Nat :=
  if compFuncHolds d.func ref s then
    if depthPass then (true, applyStencilOp d.passOp ref s)
    else (false, applyStencilOp d.depthFailOp ref s)
  else (false, applyStencilOp d.failOp ref s)

/-- The shadow pipeline's (front-face) stencil description from
`SetPSOs` lines 1045–1048. -/
def shadowDSSFace : StencilFaceDesc :=
  { failOp := StencilOp.keep
    depthFailOp := StencilOp.keep
    passOp := StencilOp.incr
    func := CompFunc.equal }

/-- Fold `n` depth-passing fragments of shadow geometry over one pixel:
state is (number of blends applied so far, current stencil value). -/
def shadowFrags (d : StencilFaceDesc) (ref : Nat) :
    Nat → Nat × Nat → Nat × Nat
  | 0, st => st
  | n + 1, (b, s) =>
      let r := stencilFrag d ref true s
      shadowFrags d ref n (b + (if r.1 then 1 else 0), r.2)

theorem shadowFrags_stable (k b : Nat) :
    shadowFrags shadowDSSFace 0 k (b, 1) = (b, 1) := by
  induction k generalizing b with
  | zero => rfl
  | succ k ih =>
      simp only [shadowFrags, stencilFrag, compFuncHolds, shadowDSSFace,
        applyStencilOp]
      simpa using ih b

/-- C6: under the shadow pass's depth-stencil rule (stencil test
equal-to-reference, pass operation increment) with reference 0, a pixel
whose stencil starts at 0 that receives `n ≥ 2` overlapping
shadow-casting fragments in one tick gets the shadow blend applied
exactly once, and ends with stencil value exactly 1, not 2. -/
theorem C6_shadow_blend_once (n : Nat) (hn : 2 ≤ n) :
    shadowFrags shadowDSSFace 0 n (0, 0) = (1, 1) := by
  obtain ⟨k, rfl⟩ : ∃ k, n = k + 1 := ⟨n - 1, by omega⟩
  have h1 : stencilFrag shadowDSSFace 0 true 0 = (true, 1) := by decide
  simp only [shadowFrags, h1]
  simpa using shadowFrags_stable k 1

/-- Concrete instantiation of `C6_shadow_blend_once`: two overlapping
shadow fragments. -/
theorem C6_witness :
    2 ≤ 2 ∧ shadowFrags shadowDSSFace 0 2 (0, 0) = (1, 1) :=
  ⟨by decide, C6_shadow_blend_once 2 (by decide)⟩

/-! ### Camera orbit input: `PendulumMotion::OnMouseMove`

(PendulumDemo.cpp lines 387–416.)  A left-button drag converts the
pixel deltas to radians (`XMConvertToRadians(0.25 * delta)`, i.e.
`0.25 * delta * π/180`), adds them to the spherical angles, then clamps
`mPhi` into `[π/6, π/2 − 0.1]` and `mTheta` into `[7π/6, 11π/6]`.  A
right-button drag adds `0.2*dx − 0.2*dy` to `mRadius` and clamps it
into `[15, 50]`.  `MathHelper::Clamp(x, low, high)` is
`x < low ? low : (x > high ? high : x)`.  Floats are modelled as exact
rationals; the float constant `MathHelper::Pi` is the parameter
`piv`. -/

/-- `MathHelper::Clamp`. -/
def clampQ (x low high : ℚ) : ℚ :=
  if x < low then low else if high < x then high else x

theorem clampQ_mem (x low high : ℚ) (h : low ≤ high) :
    low ≤ clampQ x low high ∧ clampQ x low high ≤ high := by
  unfold clampQ
  split_ifs <;> constructor <;> linarith

theorem clampQ_eq_low (x low high : ℚ) (h : x < low) :
    clampQ x low high = low := by
  unfold clampQ
  rw [if_pos h]

theorem clampQ_eq_high (x low high : ℚ) (hlh : low ≤ high) (h : high < x) :
    clampQ x low high = high := by
  unfold clampQ
  rw [if_neg (by linarith), if_pos h]

/-- Which mouse button is held during the move (`MK_LBUTTON` /
`MK_RBUTTON` / neither). -/
inductive MouseBtn
  | left
  | right
  | neither
deriving DecidableEq

/-- The camera-related state `OnMouseMove` reads and writes. -/
structure CameraState where
  theta : ℚ
  phi : ℚ
  radius : ℚ
  lastX : ℚ
  lastY : ℚ
deriving DecidableEq

/-- `PendulumMotion::OnMouseMove` (lines 387–416). -/
def onMouseMove (piv : ℚ) (btn : MouseBtn) (x y : ℚ)
    (st : CameraState) : CameraState :=
  match btn with
  | MouseBtn.left =>
      let dx := (1/4 : ℚ) * (x - st.lastX) * (piv / 180)
      let dy := (1/4 : ℚ) * (y - st.lastY) * (piv / 180)
      { theta := clampQ (st.theta + dx) (piv * 7 / 6) (piv * 11 / 6)
        phi := clampQ (st.phi + dy) (piv / 6) (piv / 2 - 1/10)
        radius := st.radius
        lastX := x
        lastY := y }
  | MouseBtn.right =>
      let dx := (1/5 : ℚ) * (x - st.lastX)
      let dy := (1/5 : ℚ) * (y - st.lastY)
      { st with
        radius := clampQ (st.radius + dx - dy) 15 50
        lastX := x
        lastY := y }
  | MouseBtn.neither =>
      { st with lastX := x, lastY := y }

/-- C7: after any mouse-move, the camera's spherical coordinates obey
the documented bounds: a left-button drag leaves the polar angle in
`[π/6, π/2 − 0.1]`, a right-button drag leaves the radius in
`[15, 50]`; drags of arbitrary magnitude beyond the bounds leave the
value pinned exactly at the corresponding bound, never beyond it.
`piv` is the float value of `MathHelper::Pi`; the hypothesis records
that the phi bounds are ordered, which holds for it. -/
theorem C7_camera_clamped (piv x y : ℚ) (st : CameraState)
    (hpi : piv / 6 ≤ piv / 2 - 1/10) :
    (piv / 6 ≤ (onMouseMove piv MouseBtn.left x y st).phi ∧
     (onMouseMove piv MouseBtn.left x y st).phi ≤ piv / 2 - 1/10) ∧
    (st.phi + (1/4 : ℚ) * (y - st.lastY) * (piv / 180) < piv / 6 →
      (onMouseMove piv MouseBtn.left x y st).phi = piv / 6) ∧
    (piv / 2 - 1/10 < st.phi + (1/4 : ℚ) * (y - st.lastY) * (piv / 180) →
      (onMouseMove piv MouseBtn.left x y st).phi = piv / 2 - 1/10) ∧
    (15 ≤ (onMouseMove piv MouseBtn.right x y st).radius ∧
     (onMouseMove piv MouseBtn.right x y st).radius ≤ 50) ∧
    (st.radius + (1/5 : ℚ) * (x - st.lastX) - (1/5 : ℚ) * (y - st.lastY) < 15 →
      (onMouseMove piv MouseBtn.right x y st).radius = 15) ∧
    (50 < st.radius + (1/5 : ℚ) * (x - st.lastX) - (1/5 : ℚ) * (y - st.lastY) →
      (onMouseMove piv MouseBtn.right x y st).radius = 50) := by
  simp only [onMouseMove]
  refine ⟨clampQ_mem _ _ _ hpi, ?_, ?_, clampQ_mem _ _ _ (by norm_num), ?_, ?_⟩
  · intro h
    exact clampQ_eq_low _ _ _ h
  · intro h
    exact clampQ_eq_high _ _ _ hpi h
  · intro h
    exact clampQ_eq_low _ _ _ h
  · intro h
    exact clampQ_eq_high _ _ _ (by norm_num) h

/-- Concrete instantiation of `C7_camera_clamped` at the float value of
`MathHelper::Pi` (3.1415926535), a drag far beyond the bounds. -/
theorem C7_witness :
    ((31415926535/10000000000 : ℚ) / 6
        ≤ (31415926535/10000000000 : ℚ) / 2 - 1/10) ∧
    ((31415926535/10000000000 : ℚ) / 6
        ≤ (onMouseMove (31415926535/10000000000) MouseBtn.left 5000 5000
            ⟨0, 1, 20, 0, 0⟩).phi ∧
     (onMouseMove (31415926535/10000000000) MouseBtn.left 5000 5000
            ⟨0, 1, 20, 0, 0⟩).phi
        ≤ (31415926535/10000000000 : ℚ) / 2 - 1/10) := by
  have h : ((31415926535/10000000000 : ℚ) / 6
      ≤ (31415926535/10000000000 : ℚ) / 2 - 1/10) := by norm_num
  exact ⟨h, (C7_camera_clamped (31415926535/10000000000) 5000 5000
    ⟨0, 1, 20, 0, 0⟩ h).1⟩

/-! ### DirectXMath matrices (exact-rational model)

`XMFLOAT4X4` / `XMMATRIX` use the row-vector convention: a point `v`
transforms as `v * M`, and `A * B` applies `A` first.  The matrix
builders used by the demo are reproduced from DirectXMath:
`XMMatrixRotationZ`, `XMMatrixTranslation`, `XMMatrixReflect` (plane
assumed normalised, as the demo's planes `(0,0,1,0)` and `(0,1,0,0)`
are), and `XMMatrixShadow` (entry `(i,j)` is `dot(P,L)·δᵢⱼ − Pᵢ·Lⱼ`).
`sinf θ` and `cosf θ` are carried as symbolic parameters `s`, `c`. -/

structure Vec3 where
  x : ℚ
  y : ℚ
  z : ℚ
deriving DecidableEq

structure Vec4 where
  x : ℚ
  y : ℚ
  z : ℚ
  w : ℚ
deriving DecidableEq

structure Mat4 where
  m00 : ℚ
  m01 : ℚ
  m02 : ℚ
  m03 : ℚ
  m10 : ℚ
  m11 : ℚ
  m12 : ℚ
  m13 : ℚ
  m20 : ℚ
  m21 : ℚ
  m22 : ℚ
  m23 : ℚ
  m30 : ℚ
  m31 : ℚ
  m32 : ℚ
  m33 : ℚ
deriving DecidableEq

/-- Matrix product in the row-vector convention (`XMMatrixMultiply`). -/
def Mat4.mul (a b : Mat4) : Mat4 where
  m00 := a.m00 * b.m00 + a.m01 * b.m10 + a.m02 * b.m20 + a.m03 * b.m30
  m01 := a.m00 * b.m01 + a.m01 * b.m11 + a.m02 * b.m21 + a.m03 * b.m31
  m02 := a.m00 * b.m02 + a.m01 * b.m12 + a.m02 * b.m22 + a.m03 * b.m32
  m03 := a.m00 * b.m03 + a.m01 * b.m13 + a.m02 * b.m23 + a.m03 * b.m33
  m10 := a.m10 * b.m00 + a.m11 * b.m10 + a.m12 * b.m20 + a.m13 * b.m30
  m11 := a.m10 * b.m01 + a.m11 * b.m11 + a.m12 * b.m21 + a.m13 * b.m31
  m12 := a.m10 * b.m02 + a.m11 * b.m12 + a.m12 * b.m22 + a.m13 * b.m32
  m13 := a.m10 * b.m03 + a.m11 * b.m13 + a.m12 * b.m23 + a.m13 * b.m33
  m20 := a.m20 * b.m00 + a.m21 * b.m10 + a.m22 * b.m20 + a.m23 * b.m30
  m21 := a.m20 * b.m01 + a.m21 * b.m11 + a.m22 * b.m21 + a.m23 * b.m31
  m22 := a.m20 * b.m02 + a.m21 * b.m12 + a.m22 * b.m22 + a.m23 * b.m32
  m23 := a.m20 * b.m03 + a.m21 * b.m13 + a.m22 * b.m23 + a.m23 * b.m33
  m30 := a.m30 * b.m00 + a.m31 * b.m10 + a.m32 * b.m20 + a.m33 * b.m30
  m31 := a.m30 * b.m01 + a.m31 * b.m11 + a.m32 * b.m21 + a.m33 * b.m31
  m32 := a.m30 * b.m02 + a.m31 * b.m12 + a.m32 * b.m22 + a.m33 * b.m32
  m33 := a.m30 * b.m03 + a.m31 * b.m13 + a.m32 * b.m23 + a.m33 * b.m33

/-- `XMMatrixRotationZ θ`, with `s = sinf θ`, `c = cosf θ`. -/
def xmMatrixRotationZ (s c : ℚ) : Mat4 where
  m00 := c
  m01 := s
  m02 := 0
  m03 := 0
  m10 := -s
  m11 := c
  m12 := 0
  m13 := 0
  m20 := 0
  m21 := 0
  m22 := 1
  m23 := 0
  m30 := 0
  m31 := 0
  m32 := 0
  m33 := 1

/-- `XMMatrixTranslation tx ty tz`. -/
def xmMatrixTranslation (tx ty tz : ℚ) : Mat4 where
  m00 := 1
  m01 := 0
  m02 := 0
  m03 := 0
  m10 := 0
  m11 := 1
  m12 := 0
  m13 := 0
  m20 := 0
  m21 := 0
  m22 := 1
  m23 := 0
  m30 := tx
  m31 := ty
  m32 := tz
  m33 := 1

/-- `XMMatrixReflect p` for an already-normalised plane `p = (a,b,c,d)`:
row `i` is `eᵢ + pᵢ·(−2a, −2b, −2c, 0)`. -/
def xmMatrixReflect (p : Vec4) : Mat4 where
  m00 := 1 + p.x * (-2 * p.x)
  m01 := p.x * (-2 * p.y)
  m02 := p.x * (-2 * p.z)
  m03 := 0
  m10 := p.y * (-2 * p.x)
  m11 := 1 + p.y * (-2 * p.y)
  m12 := p.y * (-2 * p.z)
  m13 := 0
  m20 := p.z * (-2 * p.x)
  m21 := p.z * (-2 * p.y)
  m22 := 1 + p.z * (-2 * p.z)
  m23 := 0
  m30 := p.w * (-2 * p.x)
  m31 := p.w * (-2 * p.y)
  m32 := p.w * (-2 * p.z)
  m33 := 1

/-- 4-component plane dot product used by `XMMatrixShadow`. -/
def planeDot (p l : Vec4) : ℚ :=
  p.x * l.x + p.y * l.y + p.z * l.z + p.w * l.w

/-- `XMMatrixShadow p l` for an already-normalised plane: entry `(i,j)`
is `dot(p,l)·δᵢⱼ − pᵢ·lⱼ`. -/
def xmMatrixShadow (p l : Vec4) : Mat4 where
  m00 := planeDot p l - p.x * l.x
  m01 := -(p.x * l.y)
  m02 := -(p.x * l.z)
  m03 := -(p.x * l.w)
  m10 := -(p.y * l.x)
  m11 := planeDot p l - p.y * l.y
  m12 := -(p.y * l.z)
  m13 := -(p.y * l.w)
  m20 := -(p.z * l.x)
  m21 := -(p.z * l.y)
  m22 := planeDot p l - p.z * l.z
  m23 := -(p.z * l.w)
  m30 := -(p.w * l.x)
  m31 := -(p.w * l.y)
  m32 := -(p.w * l.z)
  m33 := planeDot p l - p.w * l.w

/-- `XMVector3TransformNormal v m`: transform by the upper 3×3 block
(no translation). -/
def vec3TransformNormal (v : Vec3) (m : Mat4) : Vec3 where
  x := v.x * m.m00 + v.y * m.m10 + v.z * m.m20
  y := v.x * m.m01 + v.y * m.m11 + v.z * m.m21
  z := v.x * m.m02 + v.y * m.m12 + v.z * m.m22

/-- Transform a point (w = 1) by an affine matrix, row-vector
convention. -/
def vec3TransformPoint (v : Vec3) (m : Mat4) : Vec3 where
  x := v.x * m.m00 + v.y * m.m10 + v.z * m.m20 + m.m30
  y := v.x * m.m01 + v.y * m.m11 + v.z * m.m21 + m.m31
  z := v.x * m.m02 + v.y * m.m12 + v.z * m.m22 + m.m32

/-- The mirror plane: the xy-plane with normal `(0,0,1)`
(PendulumDemo.cpp line 466). -/
def mirrorPlane : Vec4 := ⟨0, 0, 1, 0⟩

/-- The floor plane: the xz-plane with normal `(0,1,0)` (line 471). -/
def shadowPlane : Vec4 := ⟨0, 1, 0, 0⟩

/-! ### World matrices of the pendulum, its reflection and its shadow

`UpdateReflectedAndShadowed` (PendulumDemo.cpp lines 456–496) rebuilds
the wire and ball world matrices from the pendulum angle, then derives
the reflected copies (`world * R`) and the shadow copies
(`world * S * translation(0, 0.001, 0)`), where `S` is
`XMMatrixShadow(floorPlane, −Lights[0].Direction)`.  The ceiling items
(SetRenderingItems lines 1160–1186) are built once: the reflected and
shadowed ceiling items are struct copies of the base ceiling item
(world `translation(0,6,−5)`) with only the buffer index (and, for the
shadow, the material) overridden — their world matrices are never
recomputed anywhere. -/

/-- The six per-tick pendulum world matrices: index 0 the object
itself, 1 its reflection, 2 its shadow (for wire and ball). -/
structure PendWorlds where
  wire0 : Mat4
  wire1 : Mat4
  wire2 : Mat4
  ball0 : Mat4
  ball1 : Mat4
  ball2 : Mat4
deriving DecidableEq

/-- `UpdateReflectedAndShadowed`, with `s = sinf θ`, `c = cosf θ`,
`len` the wire length and `(lx, ly, lz)` the current
`mCommonCB.Lights[0].Direction`. -/
def updateReflectedAndShadowed (s c len lx ly lz : ℚ) : PendWorlds :=
  let wireWorld := (xmMatrixRotationZ s c).mul
    (xmMatrixTranslation (0 + (len / 2) * s) (6 - (len / 2) * c) (-5))
  let r := xmMatrixReflect mirrorPlane
  let toMainLight : Vec4 := ⟨-lx, -ly, -lz, 0⟩
  let sh := xmMatrixShadow shadowPlane toMainLight
  let shadowOffSetY := xmMatrixTranslation 0 (1/1000) 0
  let ballWorld := (xmMatrixRotationZ s c).mul
    (xmMatrixTranslation (0 + (len + 1/10) * s) (6 - (len + 1/10) * c) (-5))
  { wire0 := wireWorld
    wire1 := wireWorld.mul r
    wire2 := (wireWorld.mul sh).mul shadowOffSetY
    ball0 := ballWorld
    ball1 := ballWorld.mul r
    ball2 := (ballWorld.mul sh).mul shadowOffSetY }

/-- World matrix of the base ceiling item:
`XMMatrixTranslation(0, 6, −5)` (SetRenderingItems line 1161). -/
def ceilingWorld : Mat4 := xmMatrixTranslation 0 6 (-5)

/-- World matrix of the Reflected-layer ceiling item: the struct copy
`*reflectedCeilingRitem = *ceilingRitem` (line 1175) keeps the base
world matrix, and no update routine ever rewrites it. -/
def reflectedCeilingWorld : Mat4 := ceilingWorld

/-- World matrix of the Shadow-layer ceiling item: the struct copy at
line 1182 keeps the base world matrix; only index and material are
overridden. -/
def shadowedCeilingWorld : Mat4 := ceilingWorld

/-- `mCommonCB.Lights[0].Direction` as set by `UpdateCommonCB`
(line 547): `(0.57735, −0.70735, 0.57735)`. -/
def mainLightDir : Vec3 := ⟨57735/100000, -70735/100000, 57735/100000⟩

/-- C3 as stated is false: the Reflected layer contains the reflected
ceiling item, whose world matrix is the unreflected base world (and the
Shadow layer contains the shadowed ceiling item, again with the plain
base world), so it differs from `base * ReflectionMatrix` (resp.
`base * ShadowMatrix * offset`): the base ceiling sits at `z = −5`, its
mirror image would sit at `z = +5`. -/
theorem C3_counterexample :
    reflectedCeilingWorld ≠ ceilingWorld.mul (xmMatrixReflect mirrorPlane) ∧
    shadowedCeilingWorld ≠
      (ceilingWorld.mul (xmMatrixShadow shadowPlane
        ⟨-mainLightDir.x, -mainLightDir.y, -mainLightDir.z, 0⟩)).mul
        (xmMatrixTranslation 0 (1/1000) 0) := by
  constructor <;>
    norm_num [reflectedCeilingWorld, shadowedCeilingWorld, ceilingWorld,
      Mat4.mul, xmMatrixReflect, xmMatrixShadow, xmMatrixTranslation,
      mirrorPlane, shadowPlane, mainLightDir, planeDot, Mat4.mk.injEq]

/-- C3 amended: the claimed relation holds for the wire and ball items
— the Reflected-layer wire and ball worlds equal the base world times
the reflection matrix of the xy-plane (which is `diag(1,1,−1,1)`), and
the Shadow-layer wire and ball worlds equal the base world times the
planar-shadow matrix of the dominant light followed by the constant
translation `(0, 0.001, 0)` — but the ceiling's Reflected/Shadow-layer
copies keep the unmodified base world matrix. -/
theorem C3_reflected_shadow_worlds (s c len lx ly lz : ℚ) :
    (updateReflectedAndShadowed s c len lx ly lz).wire1
      = (updateReflectedAndShadowed s c len lx ly lz).wire0.mul
          (xmMatrixReflect mirrorPlane) ∧
    (updateReflectedAndShadowed s c len lx ly lz).ball1
      = (updateReflectedAndShadowed s c len lx ly lz).ball0.mul
          (xmMatrixReflect mirrorPlane) ∧
    (updateReflectedAndShadowed s c len lx ly lz).wire2
      = ((updateReflectedAndShadowed s c len lx ly lz).wire0.mul
          (xmMatrixShadow shadowPlane ⟨-lx, -ly, -lz, 0⟩)).mul
          (xmMatrixTranslation 0 (1/1000) 0) ∧
    (updateReflectedAndShadowed s c len lx ly lz).ball2
      = ((updateReflectedAndShadowed s c len lx ly lz).ball0.mul
          (xmMatrixShadow shadowPlane ⟨-lx, -ly, -lz, 0⟩)).mul
          (xmMatrixTranslation 0 (1/1000) 0) ∧
    xmMatrixReflect mirrorPlane =
      { m00 := 1, m01 := 0, m02 := 0, m03 := 0
        m10 := 0, m11 := 1, m12 := 0, m13 := 0
        m20 := 0, m21 := 0, m22 := -1, m23 := 0
        m30 := 0, m31 := 0, m32 := 0, m33 := 1 } ∧
    reflectedCeilingWorld = ceilingWorld ∧
    shadowedCeilingWorld = ceilingWorld := by
  refine ⟨rfl, rfl, rfl, rfl, ?_, rfl, rfl⟩
  norm_num [xmMatrixReflect, mirrorPlane, Mat4.mk.injEq]

/-! ### The two common-constants copies per frame slot

`UpdateCommonCB` (PendulumDemo.cpp lines 523–556) fills `mCommonCB`
and writes it with `CopyData(0, mCommonCB)`.  `UpdateReflectedCommonCB`
(lines 558–576) struct-copies `mCommonCB` into `mReflectedCommonCB`,
replaces the three light directions by
`XMVector3TransformNormal(dir, XMMatrixReflect(xyPlane))`, and writes
the result with `CopyData(1, ...)`.  Every other field — in particular
the camera position `CameraPosW` and the view/projection matrices — is
carried over unchanged by the struct copy.  The model keeps the fields
relevant to the claim: the camera position and the three light
directions (the untouched remainder behaves like `cameraPosW`). -/

/-- The fields of `CommonConstants` relevant to the mirroring claim. -/
structure CommonCBData where
  cameraPosW : Vec3
  light0Dir : Vec3
  light1Dir : Vec3
  light2Dir : Vec3
deriving DecidableEq

/-- `UpdateReflectedCommonCB`'s transformation of the struct-copied
primary constants (lines 560–571). -/
def updateReflectedCommonCB (cb : CommonCBData) : CommonCBData :=
  { cb with
    light0Dir := vec3TransformNormal cb.light0Dir (xmMatrixReflect mirrorPlane)
    light1Dir := vec3TransformNormal cb.light1Dir (xmMatrixReflect mirrorPlane)
    light2Dir := vec3TransformNormal cb.light2Dir (xmMatrixReflect mirrorPlane) }

/-- The two `CommonCB->CopyData` writes a tick performs into the
current slot: index 0 the primary constants (line 555), index 1 the
reflected copy (line 575). -/
def commonCBWrites (cb : CommonCBData) : List (Nat × CommonCBData) :=
  [(0, cb), (1, updateReflectedCommonCB cb)]

/-- Mirror a point across the mirror plane (the xy-plane): the full
affine reflection transform. -/
def mirrorPointXY (v : Vec3) : Vec3 :=
  vec3TransformPoint v (xmMatrixReflect mirrorPlane)

/-- The primary common constants at steady state (lines 539–552):
camera away from the mirror plane, the three fixed light
directions. -/
def commonCBExample : CommonCBData :=
  { cameraPosW := ⟨0, 0, -5⟩
    light0Dir := ⟨57735/100000, -70735/100000, 57735/100000⟩
    light1Dir := ⟨-57735/100000, -57735/100000, 57735/100000⟩
    light2Dir := ⟨0, -707/1000, -707/1000⟩ }

/-- C8 as stated is false: the reflected copy does not have the
primary copy's *positions* mirrored — `CameraPosW` is struct-copied
unchanged.  At a camera position `(0,0,−5)` its mirror image across
the xy-plane is `(0,0,5)`, but the reflected copy still holds
`(0,0,−5)`. -/
theorem C8_counterexample :
    (updateReflectedCommonCB commonCBExample).cameraPosW
      = commonCBExample.cameraPosW ∧
    (updateReflectedCommonCB commonCBExample).cameraPosW
      ≠ mirrorPointXY commonCBExample.cameraPosW := by
  refine ⟨rfl, ?_⟩
  norm_num [updateReflectedCommonCB, commonCBExample, mirrorPointXY,
    vec3TransformPoint, xmMatrixReflect, mirrorPlane, Vec3.mk.injEq]

/-- C8 amended: every tick two common-constants copies are written into
the current slot — the primary at index 0 and the reflected copy at
index 1 — where the reflected copy equals the primary with exactly the
three light directions mirrored across the xy-plane (z negated); all
other fields, including the camera position, are copied unchanged. -/
theorem C8_two_common_copies (cb : CommonCBData) :
    commonCBWrites cb =
      [(0, cb),
       (1, { cameraPosW := cb.cameraPosW
             light0Dir := ⟨cb.light0Dir.x, cb.light0Dir.y, -cb.light0Dir.z⟩
             light1Dir := ⟨cb.light1Dir.x, cb.light1Dir.y, -cb.light1Dir.z⟩
             light2Dir := ⟨cb.light2Dir.x, cb.light2Dir.y, -cb.light2Dir.z⟩ })] := by
  simp only [commonCBWrites, updateReflectedCommonCB, vec3TransformNormal,
    xmMatrixReflect, mirrorPlane, List.cons.injEq, Prod.mk.injEq,
    CommonCBData.mk.injEq, Vec3.mk.injEq, and_true, true_and]
  norm_num

/-! ### The explicit-Euler pendulum integrator

`PendulumMotion::EulerUpdate(dt)` (PendulumDemo.cpp lines 206–221):
if the externally toggled flag `D3DApp::mStatusChange` is set, the
angle is overridden to `D3DApp::inheritValue1 * MathHelper::Pi / 180`
(degrees → radians), the angular speed reset to 0 and the flag
cleared; then, in the same call,

    omega ← omega − (dt/1) * (gravConst / wLength) * sinf(theta)
    theta ← theta + (dt/1) * omega        (the already-updated omega)

with `const float gravConst = 9.8` (line 26).  The integrator is
embedded parametrically over a field `R` with the sine function `sn`
and the float constant `MathHelper::Pi` as parameter `piv`, so that it
can be instantiated at `ℝ` with `Real.sin` for the numeric claims and
at `ℚ` for executable witnesses. -/

/-- The pendulum state acted on by `EulerUpdate`: `SimplePendulum`'s
`omega`, `theta`, `wLength` plus the cross-component override channel
`D3DApp::mStatusChange` / `D3DApp::inheritValue1`. -/
structure PendState (R : Type) where
  omega : R
  theta : R
  wLength : R
  statusChange : Bool
  inheritValue1 : R

/-- `const float gravConst = 9.8` (PendulumDemo.cpp line 26). -/
def gravConst {R : Type} [Field R] : R := 49/5

/-- `PendulumMotion::EulerUpdate` (lines 206–221). -/
def eulerUpdate {R : Type} [Field R] (sn : R → R) (piv dt : R)
    (s : PendState R) : PendState R :=
  let s0 := if s.statusChange then
      { s with
        theta := s.inheritValue1 * piv / 180
        omega := 0
        statusChange := false }
    else s
  let omega' := s0.omega - dt / 1 * (gravConst / s0.wLength) * sn s0.theta
  let theta' := s0.theta + dt / 1 * omega'
  { s0 with omega := omega', theta := theta' }

theorem sqrt_three_bounds :
    (1732/1000 : ℝ) < Real.sqrt 3 ∧ Real.sqrt 3 < 17321/10000 := by
  have hsq : Real.sqrt 3 ^ 2 = 3 := Real.sq_sqrt (by norm_num)
  have hnn : (0:ℝ) ≤ Real.sqrt 3 := Real.sqrt_nonneg 3
  constructor
  · nlinarith [sq_nonneg (Real.sqrt 3 - 1732/1000)]
  · nlinarith [sq_nonneg (Real.sqrt 3 - 17321/10000)]

/-- C5 as stated is false at its own numbers: one Euler step from
angle π/3, speed 0, length 3, dt = 0.01 produces an angular speed of
`−0.01·(9.8/3)·sin(π/3) ≈ −0.0283`, not `≈ −0.0849` (the claimed value
drops the division by the wire length), and an angle of
`≈ π/3 − 0.000283`, not `π/3 − 0.000849`: the computed speed exceeds
the claimed −0.0849 by more than 0.05 and the computed angle exceeds
the claimed angle by more than 0.0005. -/
theorem C5_counterexample :
    (-849/10000 : ℝ) + 5/100
        < (eulerUpdate Real.sin Real.pi (1/100)
            ⟨0, Real.pi/3, 3, false, 0⟩).omega ∧
    (eulerUpdate Real.sin Real.pi (1/100)
        ⟨0, Real.pi/3, 3, false, 0⟩).omega ≠ -849/10000 ∧
    Real.pi/3 - 849/1000000 + 5/10000
        < (eulerUpdate Real.sin Real.pi (1/100)
            ⟨0, Real.pi/3, 3, false, 0⟩).theta ∧
    (eulerUpdate Real.sin Real.pi (1/100)
        ⟨0, Real.pi/3, 3, false, 0⟩).theta ≠ Real.pi/3 - 849/1000000 := by
  obtain ⟨h1, h2⟩ := sqrt_three_bounds
  have hsin : Real.sin (Real.pi/3) = Real.sqrt 3 / 2 := Real.sin_pi_div_three
  simp only [eulerUpdate, Bool.false_eq_true, if_false, gravConst]
  simp only [hsin]
  refine ⟨by nlinarith, by nlinarith, by nlinarith, by nlinarith⟩

/-- C5 amended: one Euler step from angle π/3, speed 0, wire length 3,
dt = 0.01 produces angular speed `−0.01·(9.8/3)·sin(π/3)`, which lies
in (−0.02830, −0.02828) (≈ −0.0283 rad/s), and angle
`π/3 + 0.01·ω'` (the angle update uses the already-updated angular
speed), which lies in (π/3 − 0.000283, π/3 − 0.0002828). -/
theorem C5_euler_step_pi_div_three :
    (eulerUpdate Real.sin Real.pi (1/100)
        ⟨0, Real.pi/3, 3, false, 0⟩).omega
      = 0 - 1/100 / 1 * ((49/5) / 3) * Real.sin (Real.pi/3) ∧
    (eulerUpdate Real.sin Real.pi (1/100)
        ⟨0, Real.pi/3, 3, false, 0⟩).theta
      = Real.pi/3 + 1/100 / 1 *
          (eulerUpdate Real.sin Real.pi (1/100)
            ⟨0, Real.pi/3, 3, false, 0⟩).omega ∧
    (-2830/100000 : ℝ)
        < (eulerUpdate Real.sin Real.pi (1/100)
            ⟨0, Real.pi/3, 3, false, 0⟩).omega ∧
    (eulerUpdate Real.sin Real.pi (1/100)
        ⟨0, Real.pi/3, 3, false, 0⟩).omega < -2828/100000 ∧
    Real.pi/3 - 283/1000000
        < (eulerUpdate Real.sin Real.pi (1/100)
            ⟨0, Real.pi/3, 3, false, 0⟩).theta ∧
    (eulerUpdate Real.sin Real.pi (1/100)
        ⟨0, Real.pi/3, 3, false, 0⟩).theta
      < Real.pi/3 - 2828/10000000 := by
  obtain ⟨h1, h2⟩ := sqrt_three_bounds
  have hsin : Real.sin (Real.pi/3) = Real.sqrt 3 / 2 := Real.sin_pi_div_three
  simp only [eulerUpdate, Bool.false_eq_true, if_false, gravConst]
  refine ⟨trivial, trivial, ?_, ?_, ?_, ?_⟩ <;>
    · simp only [hsin]
      nlinarith

/-- C10: when the status-change flag is set, `EulerUpdate` overrides
the angle to the pending value converted from degrees to radians,
resets the angular speed to 0 and clears the flag, and then still
applies the Euler step in the same call — so the post-call angle is
the overridden angle plus one integration step, not the requested
angle itself; and a second call no longer overrides (the flag was
consumed), integrating from the produced state instead. -/
theorem C10_status_override {R : Type} [Field R] (sn : R → R)
    (piv dt dt2 : R) (s : PendState R) (h : s.statusChange = true) :
    (eulerUpdate sn piv dt s).statusChange = false ∧
    (eulerUpdate sn piv dt s).omega
      = 0 - dt / 1 * (gravConst / s.wLength)
          * sn (s.inheritValue1 * piv / 180) ∧
    (eulerUpdate sn piv dt s).theta
      = s.inheritValue1 * piv / 180
          + dt / 1 * (eulerUpdate sn piv dt s).omega ∧
    (eulerUpdate sn piv dt s).wLength = s.wLength ∧
    (eulerUpdate sn piv dt2 (eulerUpdate sn piv dt s)).statusChange = false ∧
    (eulerUpdate sn piv dt2 (eulerUpdate sn piv dt s)).omega
      = (eulerUpdate sn piv dt s).omega
          - dt2 / 1 * (gravConst / s.wLength)
            * sn ((eulerUpdate sn piv dt s).theta) ∧
    (eulerUpdate sn piv dt2 (eulerUpdate sn piv dt s)).theta
      = (eulerUpdate sn piv dt s).theta
          + dt2 / 1 * (eulerUpdate sn piv dt2 (eulerUpdate sn piv dt s)).omega := by
  simp [eulerUpdate, h]

/-- Concrete instantiation of `C10_status_override` over `ℚ` with a
placeholder sine, pending angle 30 degrees. -/
theorem C10_witness :
    ((⟨1, 2, 3, true, 30⟩ : PendState ℚ).statusChange = true) ∧
    ((eulerUpdate (fun q => q) 3 (1/100) (⟨1, 2, 3, true, 30⟩ : PendState ℚ)).statusChange = false ∧
     (eulerUpdate (fun q => q) 3 (1/100) (⟨1, 2, 3, true, 30⟩ : PendState ℚ)).omega
       = 0 - (1/100) / 1 * (gravConst / (⟨1, 2, 3, true, 30⟩ : PendState ℚ).wLength)
           * (fun q => q) ((⟨1, 2, 3, true, 30⟩ : PendState ℚ).inheritValue1 * 3 / 180) ∧
     (eulerUpdate (fun q => q) 3 (1/100) (⟨1, 2, 3, true, 30⟩ : PendState ℚ)).theta
       = (⟨1, 2, 3, true, 30⟩ : PendState ℚ).inheritValue1 * 3 / 180
           + (1/100) / 1 * (eulerUpdate (fun q => q) 3 (1/100) (⟨1, 2, 3, true, 30⟩ : PendState ℚ)).omega ∧
     (eulerUpdate (fun q => q) 3 (1/100) (⟨1, 2, 3, true, 30⟩ : PendState ℚ)).wLength
       = (⟨1, 2, 3, true, 30⟩ : PendState ℚ).wLength ∧
     (eulerUpdate (fun q => q) 3 (1/50) (eulerUpdate (fun q => q) 3 (1/100) (⟨1, 2, 3, true, 30⟩ : PendState ℚ))).statusChange = false ∧
     (eulerUpdate (fun q => q) 3 (1/50) (eulerUpdate (fun q => q) 3 (1/100) (⟨1, 2, 3, true, 30⟩ : PendState ℚ))).omega
       = (eulerUpdate (fun q => q) 3 (1/100) (⟨1, 2, 3, true, 30⟩ : PendState ℚ)).omega
           - (1/50) / 1 * (gravConst / (⟨1, 2, 3, true, 30⟩ : PendState ℚ).wLength)
             * (fun q => q) ((eulerUpdate (fun q => q) 3 (1/100) (⟨1, 2, 3, true, 30⟩ : PendState ℚ)).theta) ∧
     (eulerUpdate (fun q => q) 3 (1/50) (eulerUpdate (fun q => q) 3 (1/100) (⟨1, 2, 3, true, 30⟩ : PendState ℚ))).theta
       = (eulerUpdate (fun q => q) 3 (1/100) (⟨1, 2, 3, true, 30⟩ : PendState ℚ)).theta
           + (1/50) / 1 * (eulerUpdate (fun q => q) 3 (1/50) (eulerUpdate (fun q => q) 3 (1/100) (⟨1, 2, 3, true, 30⟩ : PendState ℚ))).omega) :=
  ⟨rfl, C10_status_override (fun q => q) 3 (1/100) (1/50)
    (⟨1, 2, 3, true, 30⟩ : PendState ℚ) rfl⟩

/-! ### Dirty propagation across the frame-buffer ring

Per tick, `Update` first advances the ring cursor, then
`UpdateObjectCBs` (PendulumDemo.cpp lines 434–454) writes, for every
render item with `numFrameBufferFill > 0`, the recomputed payload into
the *current* slot's object buffer at the item's fixed index — and
does **not** decrement `numFrameBufferFill` — while
`UpdateMaterialCBs` (lines 499–521) writes, for every material with
`NumFramesDirty > 0`, into the current slot's material buffer and then
executes `mat->NumFramesDirty--`.  The propagation behaviour of one
entity is modelled as a state machine over its refresh counter, the
`N` per-slot buffer copies of its constant-buffer entry, and the ring
cursor. -/

/-- One entity's propagation state: its refresh counter
(`NumFramesDirty` / `numFrameBufferFill`), the entity's entry in each
of the `N` per-slot buffers, and the ring cursor. -/
structure PropState (V : Type) where
  refresh : Nat
  buffers : List V
  cursor : Nat

/-- One tick of material propagation (`UpdateMaterialCBs`): the cursor
advances (Update line 279), and if the counter is positive the payload
is written to the current slot and the counter decremented.  Returns
the new state and the index of the slot written (if any). -/
def matCBTick {V : Type} (value : V) (s : PropState V) :
    PropState V × Option Nat :=
  if 0 < s.refresh then
    (⟨s.refresh - 1,
      s.buffers.set ((s.cursor + 1) % s.buffers.length) value,
      (s.cursor + 1) % s.buffers.length⟩,
     some ((s.cursor + 1) % s.buffers.length))
  else
    (⟨s.refresh, s.buffers, (s.cursor + 1) % s.buffers.length⟩, none)

/-- One tick of render-item propagation (`UpdateObjectCBs`): identical
to the material tick except that the counter is **not** decremented
(the source loop at lines 440–453 contains no decrement). -/
def objCBTick {V : Type} (value : V) (s : PropState V) :
    PropState V × Option Nat :=
  if 0 < s.refresh then
    (⟨s.refresh,
      s.buffers.set ((s.cursor + 1) % s.buffers.length) value,
      (s.cursor + 1) % s.buffers.length⟩,
     some ((s.cursor + 1) % s.buffers.length))
  else
    (⟨s.refresh, s.buffers, (s.cursor + 1) % s.buffers.length⟩, none)

/-- Run `k` material ticks, collecting the per-tick write targets. -/
def matCBRun {V : Type} (value : V) : Nat → PropState V →
    PropState V × List (Option Nat)
  | 0, s => (s, [])
  | k + 1, s =>
      let r := matCBTick value s
      let rest := matCBRun value k r.1
      (rest.1, r.2 :: rest.2)

/-- Run `k` render-item ticks, collecting the per-tick write targets. -/
def objCBRun {V : Type} (value : V) : Nat → PropState V →
    PropState V × List (Option Nat)
  | 0, s => (s, [])
  | k + 1, s =>
      let r := objCBTick value s
      let rest := objCBRun value k r.1
      (rest.1, r.2 :: rest.2)

theorem matCBRun_spec {V : Type} (value : V) :
    ∀ (k : Nat) (s : PropState V), k ≤ s.refresh →
    (matCBRun value k s).1.refresh = s.refresh - k ∧
    (matCBRun value k s).1.buffers.length = s.buffers.length ∧
    (matCBRun value k s).2
      = (List.range k).map
          (fun i => some ((s.cursor + 1 + i) % s.buffers.length)) := by
  intro k
  induction k with
  | zero => exact fun s _ => ⟨rfl, rfl, rfl⟩
  | succ k ih =>
      intro s hk
      have hpos : 0 < s.refresh := by omega
      have htick : matCBTick value s =
          (⟨s.refresh - 1,
            s.buffers.set ((s.cursor + 1) % s.buffers.length) value,
            (s.cursor + 1) % s.buffers.length⟩,
           some ((s.cursor + 1) % s.buffers.length)) := by
        unfold matCBTick
        rw [if_pos hpos]
      obtain ⟨ihr, ihl, ihw⟩ := ih
        ⟨s.refresh - 1,
          s.buffers.set ((s.cursor + 1) % s.buffers.length) value,
          (s.cursor + 1) % s.buffers.length⟩
        (show k ≤ s.refresh - 1 by omega)
      simp only [matCBRun, htick] at ihr ihl ihw ⊢
      refine ⟨?_, ?_, ?_⟩
      · rw [ihr]
        show s.refresh - 1 - k = s.refresh - (k + 1)
        omega
      · rw [ihl]
        exact List.length_set ..
      · rw [ihw, List.range_succ_eq_map]
        simp only [List.map_cons, List.map_map]
        refine congrArg₂ _ (by simp) ?_
        refine List.map_congr_left ?_
        intro i _
        simp only [Function.comp_apply, List.length_set, Option.some.injEq]
        have h2 : (s.cursor + 1) % s.buffers.length + 1 + i
            = (s.cursor + 1) % s.buffers.length + (1 + i) := by omega
        rw [h2, Nat.mod_add_mod]
        exact congrArg (· % s.buffers.length) (by omega)

theorem matCBRun_buffers_value {V : Type} (value d : V) :
    ∀ (k : Nat) (s : PropState V) (j : Nat),
    (s.buffers.getD j d = value ∨
      ∃ i, i < k ∧ (s.cursor + 1 + i) % s.buffers.length = j) →
    k ≤ s.refresh → j < s.buffers.length →
    (matCBRun value k s).1.buffers.getD j d = value := by
  intro k
  induction k with
  | zero =>
      intro s j hj _ _
      rcases hj with hj | ⟨i, hi, _⟩
      · exact hj
      · omega
  | succ k ih =>
      intro s j hj hk hjlen
      have hpos : 0 < s.refresh := by omega
      have hcur : (s.cursor + 1) % s.buffers.length < s.buffers.length :=
        Nat.mod_lt _ (by omega)
      have htick : matCBTick value s =
          (⟨s.refresh - 1,
            s.buffers.set ((s.cursor + 1) % s.buffers.length) value,
            (s.cursor + 1) % s.buffers.length⟩,
           some ((s.cursor + 1) % s.buffers.length)) := by
        unfold matCBTick
        rw [if_pos hpos]
      simp only [matCBRun, htick]
      refine ih _ j ?_ (show k ≤ s.refresh - 1 by omega)
        (show j < (s.buffers.set _ value).length by
          rw [List.length_set]; exact hjlen)
      by_cases hjc : j = (s.cursor + 1) % s.buffers.length
      · left
        show (s.buffers.set ((s.cursor + 1) % s.buffers.length) value).getD j d
          = value
        subst hjc
        exact getD_set_self _ _ hcur _ _
      · rcases hj with hj | ⟨i, hi, hij⟩
        · left
          show (s.buffers.set ((s.cursor + 1) % s.buffers.length) value).getD j d
            = value
          rw [getD_set_ne _ _ _ (fun h => hjc h.symm)]
          exact hj
        · rcases i with _ | i
          · exact absurd (by simpa using hij.symm) hjc
          · right
            refine ⟨i, by omega, ?_⟩
            show ((s.cursor + 1) % s.buffers.length + 1 + i) %
              (s.buffers.set _ value).length = j
            rw [List.length_set]
            have h2 : (s.cursor + 1) % s.buffers.length + 1 + i
                = (s.cursor + 1) % s.buffers.length + (1 + i) := by omega
            rw [h2, Nat.mod_add_mod, ← hij]
            exact congrArg (· % s.buffers.length) (by omega)

theorem objCBRun_spec {V : Type} (value : V) :
    ∀ (k : Nat) (s : PropState V), 0 < s.refresh →
    (objCBRun value k s).1.refresh = s.refresh ∧
    (objCBRun value k s).2.all (fun w => w.isSome) = true := by
  intro k
  induction k with
  | zero => exact fun s _ => ⟨rfl, rfl⟩
  | succ k ih =>
      intro s hpos
      have htick : objCBTick value s =
          (⟨s.refresh,
            s.buffers.set ((s.cursor + 1) % s.buffers.length) value,
            (s.cursor + 1) % s.buffers.length⟩,
           some ((s.cursor + 1) % s.buffers.length)) := by
        unfold objCBTick
        rw [if_pos hpos]
      obtain ⟨ihr, ihw⟩ := ih
        ⟨s.refresh,
          s.buffers.set ((s.cursor + 1) % s.buffers.length) value,
          (s.cursor + 1) % s.buffers.length⟩ hpos
      simp only [objCBRun, htick] at ihr ihw ⊢
      refine ⟨ihr, ?_⟩
      simp only [List.all_cons, Option.isSome_some, Bool.true_and]
      exact ihw

theorem mod_shift_inj (n c : Nat) :
    ∀ i ∈ List.range n, ∀ j ∈ List.range n,
      (c + 1 + i) % n = (c + 1 + j) % n → i = j := by
  intro i hi j hj hij
  rw [List.mem_range] at hi hj
  have h : i % n = j % n :=
    Nat.ModEq.add_left_cancel' (c + 1) hij
  rwa [Nat.mod_eq_of_lt hi, Nat.mod_eq_of_lt hj] at h

theorem mod_shift_surj (n c j : Nat) (hn : 0 < n) (hj : j < n) :
    ∃ i, i < n ∧ (c + 1 + i) % n = j := by
  have hr : (c + 1) % n < n := Nat.mod_lt _ hn
  refine ⟨(j + n - (c + 1) % n) % n, Nat.mod_lt _ hn, ?_⟩
  calc (c + 1 + (j + n - (c + 1) % n) % n) % n
      = ((c + 1) % n + (j + n - (c + 1) % n) % n) % n :=
        (Nat.mod_add_mod _ _ _).symm
    _ = ((c + 1) % n + (j + n - (c + 1) % n)) % n := Nat.add_mod_mod _ _ _
    _ = (j + n) % n := by
        rw [Nat.add_sub_cancel' (show (c + 1) % n ≤ j + n by omega)]
    _ = j % n := Nat.add_mod_right j n
    _ = j := Nat.mod_eq_of_lt hj

theorem filterMap_id_map_some {α β : Type} (l : List α) (g : α → β) :
    (l.map (fun a => some (g a))).filterMap id = l.map g := by
  induction l with
  | nil => rfl
  | cons a l ih => simp [ih]

/-- C2 as stated is false for render items: `UpdateObjectCBs` never
decrements `numFrameBufferFill`.  Concretely, for ring depth 3, an
item whose value changed once (counter re-armed to 3) and then stayed
unchanged is written on every one of the next 4 ticks — the counter is
still 3 after 4 ticks instead of 0 after 3, and the 4th write hits
slot 1 a second time, a duplicate write the claim rules out. -/
theorem C2_counterexample :
    (objCBRun 7 4 ⟨3, [0, 0, 0], 0⟩).1.refresh = 3 ∧
    (objCBRun 7 4 ⟨3, [0, 0, 0], 0⟩).2
      = [some 1, some 2, some 0, some 1] ∧
    ¬ ((objCBRun 7 4 ⟨3, [0, 0, 0], 0⟩).2.filterMap id).Nodup := by
  refine ⟨rfl, rfl, by decide⟩

/-- C2 amended: the claimed exactly-once propagation holds for
materials (whose counter `UpdateMaterialCBs` does decrement): for any
ring depth `N = bufs.length` and start cursor, after a single change
re-arms the counter to `N`, the next `N` ticks write the payload into
the `N` per-slot buffers exactly once each (the write targets are the
`N` consecutive slots, pairwise distinct, each slot counted once), the
counter reaches 0, every slot then holds the new value, and the next
tick performs no write.  Render items, by contrast, keep
`refresh = N` forever and are rewritten on every tick while it is
positive (no decrement in `UpdateObjectCBs`). -/
theorem C2_dirty_propagation {V : Type} (value : V) (bufs : List V)
    (c k : Nat) (hN : 0 < bufs.length) :
    (matCBRun value bufs.length ⟨bufs.length, bufs, c⟩).1.refresh = 0 ∧
    (matCBRun value bufs.length ⟨bufs.length, bufs, c⟩).2
      = (List.range bufs.length).map
          (fun i => some ((c + 1 + i) % bufs.length)) ∧
    ((matCBRun value bufs.length ⟨bufs.length, bufs, c⟩).2.filterMap id).Nodup ∧
    (∀ j, j < bufs.length →
      ((matCBRun value bufs.length ⟨bufs.length, bufs, c⟩).2.filterMap
        id).count j = 1) ∧
    (matCBRun value bufs.length ⟨bufs.length, bufs, c⟩).1.buffers
      = List.replicate bufs.length value ∧
    (matCBTick value
      (matCBRun value bufs.length ⟨bufs.length, bufs, c⟩).1).2 = none ∧
    (objCBRun value k ⟨bufs.length, bufs, c⟩).1.refresh = bufs.length ∧
    (objCBRun value k ⟨bufs.length, bufs, c⟩).2.all
      (fun w => w.isSome) = true := by
  obtain ⟨hr, hl, hw⟩ := matCBRun_spec value bufs.length
    ⟨bufs.length, bufs, c⟩ (Nat.le_refl _)
  have hr0 : (matCBRun value bufs.length ⟨bufs.length, bufs, c⟩).1.refresh
      = 0 := by
    rw [hr]
    show bufs.length - bufs.length = 0
    omega
  have hw' : (matCBRun value bufs.length ⟨bufs.length, bufs, c⟩).2
      = (List.range bufs.length).map
          (fun i => some ((c + 1 + i) % bufs.length)) := hw
  have htargets :
      (matCBRun value bufs.length ⟨bufs.length, bufs, c⟩).2.filterMap id
        = (List.range bufs.length).map
            (fun i => (c + 1 + i) % bufs.length) := by
    rw [hw']
    exact filterMap_id_map_some _ _
  have hnodup :
      ((matCBRun value bufs.length ⟨bufs.length, bufs, c⟩).2.filterMap
        id).Nodup := by
    rw [htargets]
    exact List.Nodup.map_on (mod_shift_inj bufs.length c)
      (List.nodup_range _)
  have hval : ∀ j, j < bufs.length →
      (matCBRun value bufs.length ⟨bufs.length, bufs, c⟩).1.buffers.getD
        j value = value := by
    intro j hj
    refine matCBRun_buffers_value value value bufs.length
      ⟨bufs.length, bufs, c⟩ j ?_ (Nat.le_refl _) hj
    right
    exact mod_shift_surj bufs.length c j hN hj
  obtain ⟨ho1, ho2⟩ := objCBRun_spec value k ⟨bufs.length, bufs, c⟩ hN
  refine ⟨hr0, hw', hnodup, ?_, ?_, ?_, ho1, ho2⟩
  · intro j hj
    rw [htargets]
    refine List.count_eq_one_of_mem
      (List.Nodup.map_on (mod_shift_inj bufs.length c)
        (List.nodup_range _)) ?_
    obtain ⟨i, hi, hij⟩ := mod_shift_surj bufs.length c j hN hj
    exact List.mem_map.mpr ⟨i, List.mem_range.mpr hi, hij⟩
  · refine List.eq_replicate_iff.mpr ⟨hl, ?_⟩
    intro b hb
    obtain ⟨i, hilen, hbi⟩ := List.mem_iff_getElem.mp hb
    have hiN : i < bufs.length := by
      rw [hl] at hilen
      exact hilen
    have hv := hval i hiN
    rw [getD_eq_getElem _ _ hilen value] at hv
    rw [hbi] at hv
    exact hv
  · unfold matCBTick
    rw [if_neg (by rw [hr0]; omega)]

/-- Concrete instantiation of `C2_dirty_propagation`: ring depth 3,
buffers `[9, 9, 9]`, start cursor 5, new value 7, four object ticks. -/
theorem C2_witness :
    (0 < ([9, 9, 9] : List Nat).length) ∧
    ((matCBRun 7 ([9, 9, 9] : List Nat).length ⟨([9, 9, 9] : List Nat).length, [9, 9, 9], 5⟩).1.refresh = 0 ∧
     (matCBRun 7 ([9, 9, 9] : List Nat).length ⟨([9, 9, 9] : List Nat).length, [9, 9, 9], 5⟩).2
       = (List.range ([9, 9, 9] : List Nat).length).map
           (fun i => some ((5 + 1 + i) % ([9, 9, 9] : List Nat).length)) ∧
     ((matCBRun 7 ([9, 9, 9] : List Nat).length ⟨([9, 9, 9] : List Nat).length, [9, 9, 9], 5⟩).2.filterMap id).Nodup ∧
     (∀ j, j < ([9, 9, 9] : List Nat).length →
       ((matCBRun 7 ([9, 9, 9] : List Nat).length ⟨([9, 9, 9] : List Nat).length, [9, 9, 9], 5⟩).2.filterMap
         id).count j = 1) ∧
     (matCBRun 7 ([9, 9, 9] : List Nat).length ⟨([9, 9, 9] : List Nat).length, [9, 9, 9], 5⟩).1.buffers
       = List.replicate ([9, 9, 9] : List Nat).length 7 ∧
     (matCBTick 7
       (matCBRun 7 ([9, 9, 9] : List Nat).length ⟨([9, 9, 9] : List Nat).length, [9, 9, 9], 5⟩).1).2 = none ∧
     (objCBRun 7 4 ⟨([9, 9, 9] : List Nat).length, [9, 9, 9], 5⟩).1.refresh = ([9, 9, 9] : List Nat).length ∧
     (objCBRun 7 4 ⟨([9, 9, 9] : List Nat).length, [9, 9, 9], 5⟩).2.all
       (fun w => w.isSome) = true) :=
  ⟨by decide, C2_dirty_propagation 7 [9, 9, 9] 5 4 (by decide)⟩

end DXPendulum
